import Mathlib

/-!
Verification of the refresh-decision and synchronization core of the
nextjs-stream-media-processor repository (python scripts under
`scripts/`), against its natural-language specification.

Shallow embedding: each relevant python function is translated into a
Lean definition over explicit state (filesystem timestamps, parsed JSON
documents, HTTP outcomes).  Timestamps are modelled as integer seconds;
JSON documents as ordered association lists (python dicts preserve
insertion order).
-/

namespace MediaProc

/-- JSON scalar values. -/
inductive JScalar where
  | num (n : Int)
  | str (s : String)
  | boolean (b : Bool)
  | null
  deriving Repr, DecidableEq

/-- JSON-like values stored in `tmdb.config` and metadata documents.
Nesting is limited to one level (arrays and objects of scalars), which
covers every document shape the embedded code manipulates: scalar
metadata fields, and the `metadata` override map of the config, whose
fields are scalars. -/
inductive JVal where
  | scalar (v : JScalar)
  | arr (xs : List JScalar)
  | obj (fields : List (String × JScalar))
  deriving Repr, DecidableEq

/-- JSON object: an ordered association list, as a python dict. -/
abbrev JObj := List (String × JVal)

/-- Dictionary lookup, `d.get(k)` / `d[k]`: first binding for the key. -/
def jGet (o : JObj) (k : String) : Option JVal :=
  match o with
  | [] => none
  | (k2, v) :: rest => if k2 = k then some v else jGet rest k

/-- Membership test, `k in d`. -/
def jHas (o : JObj) (k : String) : Bool :=
  (jGet o k).isSome

/-- Dictionary assignment `d[k] = v`: replaces an existing binding in
place, otherwise appends (python dicts preserve insertion order). -/
def jSet (o : JObj) (k : String) (v : JVal) : JObj :=
  match o with
  | [] => [(k, v)]
  | (k2, v2) :: rest => if k2 = k then (k2, v) :: rest else (k2, v2) :: jSet rest k v

/-- Dictionary merge `d.update(overlay)`: assigns every binding of the
overlay in order (last write wins per key). -/
def jUpdate (o : JObj) (overlay : List (String × JVal)) : JObj :=
  overlay.foldl (fun acc kv => jSet acc kv.1 kv.2) o

/-- Shorthand for a scalar number value. -/
def JVal.jnum (n : Int) : JVal := .scalar (.num n)

/-- Shorthand for a scalar string value. -/
def JVal.jstr (s : String) : JVal := .scalar (.str s)

/-- Shorthand for a scalar boolean value. -/
def JVal.jbool (b : Bool) : JVal := .scalar (.boolean b)

/-- Shorthand for the scalar null value. -/
def JVal.jnull : JVal := .scalar .null

/-- Truthiness of a JSON value under python `bool()`. -/
def jTruthy (v : JVal) : Bool :=
  match v with
  | .scalar (.num n) => n != 0
  | .scalar (.str s) => !(s = "")
  | .scalar (.boolean b) => b
  | .scalar .null => false
  | .arr xs => !xs.isEmpty
  | .obj fields => !fields.isEmpty

/-! ## Refresh policy (`scripts/utils/file_utils.py`, `should_refresh_metadata`, lines 64-90) -/

/-- Timestamp state of the two files consulted by the refresh policy.
Modification times are integer seconds; the mtime fields are only
meaningful when the corresponding `exists` flag is set. -/
structure RefreshFS where
  metadata_exists : Bool
  metadata_mtime  : Int
  config_exists   : Bool
  config_mtime    : Int

/-- Seconds in `timedelta(days=1)`. -/
def oneDay : Int := 86400

/-- Embedding of `file_utils.should_refresh_metadata` (lines 64-90):
`need_refresh` starts `True`; when the metadata file exists, it is
cleared exactly when the metadata is younger than one day and the config
file is absent (`config_last_modified` is `None`) or not newer than the
metadata.  All filesystem access is existence-guarded, so the function
is total. -/
def should_refresh_metadata (fs : RefreshFS) (now : Int) : Bool :=
  if fs.metadata_exists then
    let config_last_modified : Option Int :=
      if fs.config_exists then some fs.config_mtime else none
    if (decide (now - fs.metadata_mtime < oneDay)) &&
       (match config_last_modified with
        | none => true
        | some c => decide (c ≤ fs.metadata_mtime)) then
      false
    else
      true
  else
    true

/-! ## Config store (`scripts/utils/file_utils.py`, `update_tmdb_config`, lines 34-62) -/

/-- Embedding of `file_utils.update_tmdb_config` (lines 34-62).
`config_exists` is `os.path.exists(tmdb_config_path)` and `tmdb_config`
the already-loaded config dictionary.  The result is `some c` when the
call writes document `c` to the config path, and `none` when the call
performs no write (the `tmdb_id` key is already defined). -/
def update_tmdb_config (config_exists : Bool) (tmdb_config : JObj) (media_id : Int) :
    Option JObj :=
  if !config_exists then
    some [("tmdb_id", JVal.jnum media_id)]
  else if !(jHas tmdb_config "tmdb_id") then
    some (jSet tmdb_config "tmdb_id" (JVal.jnum media_id))
  else
    none

/-! ## Remote client cast handling (`scripts/utils/tmdb_utils.py`) -/

/-- Base URL prepended to relative TMDB image paths. -/
def tmdbImageBase : String := "https://image.tmdb.org/t/p/original"

/-- Embedding of `tmdb_utils.classify_role` (lines 198-218).  The python
guard `not episode_count or episode_count <= 0` is `episode_count = 0 ∨
episode_count ≤ 0` for an integer count. -/
def classify_role (episode_count : Int) : String :=
  if episode_count = 0 ∨ episode_count ≤ 0 then "Guest Star"
  else if episode_count ≥ 8 then "Season Regular"
  else if episode_count ≥ 3 then "Recurring"
  else "Guest Star"

/-- Cast member record as read from the TMDB `aggregate_credits`
endpoint; optional fields model keys that may be absent (python
`member.get(...)` with a default). -/
structure AggCastMember where
  id : Int
  name : String
  roles : List JObj
  profile_path : Option String
  total_episode_count : Option Int
  known_for_department : Option String
  deriving Repr, DecidableEq

/-- Assembled TV cast member shape (`fetch_tmdb_cast_details`, TV branch,
lines 154-169). -/
structure CastMember where
  id : Int
  name : String
  character : String
  profile_path : Option String
  roles : List JObj
  total_episode_count : Int
  type : String
  known_for_department : Option String
  deriving Repr, DecidableEq

/-- Building one TV cast member (`fetch_tmdb_cast_details`, lines
158-169): the character comes from the first `roles` entry when any
exists, the profile path is prefixed with the image base when truthy, the
episode count defaults to 0 when the key is absent, and the member is
classified by `classify_role`. -/
def mk_tv_cast_member (m : AggCastMember) : CastMember :=
  let episode_count := m.total_episode_count.getD 0
  { id := m.id
    name := m.name
    character :=
      match m.roles with
      | [] => ""
      | r :: _ =>
          match jGet r "character" with
          | some (JVal.scalar (JScalar.str s)) => s
          | _ => ""
    profile_path :=
      match m.profile_path with
      | some p => if p = "" then none else some (tmdbImageBase ++ p)
      | none => none
    roles := m.roles
    total_episode_count := episode_count
    type := classify_role episode_count
    known_for_department := m.known_for_department }

/-- Cast member record as read from the movie `credits` endpoint. -/
structure CreditsMember where
  id : Int
  name : String
  character : Option String
  profile_path : Option String
  deriving Repr, DecidableEq

/-- Flat movie cast member shape (`fetch_tmdb_cast_details`, movie
branch, lines 185-192). -/
structure MovieCastMember where
  id : Int
  name : String
  character : String
  profile_path : Option String
  deriving Repr, DecidableEq

/-- Building one flat movie cast member (lines 186-192). -/
def mk_movie_cast_member (m : CreditsMember) : MovieCastMember :=
  { id := m.id
    name := m.name
    character := m.character.getD ""
    profile_path :=
      match m.profile_path with
      | some p => if p = "" then none else some (tmdbImageBase ++ p)
      | none => none }

/-- Result shape of `fetch_tmdb_cast_details`: a dict with `cast` and
`recurring_cast` for TV shows, a flat list for movies. -/
inductive CastData where
  | dict (cast recurring : List CastMember)
  | list (l : List MovieCastMember)
  deriving Repr, DecidableEq

/-- Embedding of `tmdb_utils.fetch_tmdb_cast_details` (lines 137-195).
`tv_credits` is `some members` exactly when the aggregate-credits request
succeeded and its body had a `cast` key (with that list as value);
`movie_credits` plays the same role for the movie `credits` endpoint.
`none` results model the final `return None`. -/
def fetch_tmdb_cast_details (media_type : String)
    (tv_credits : Option (List AggCastMember))
    (movie_credits : Option (List CreditsMember)) : Option CastData :=
  if media_type = "tv" then
    match tv_credits with
    | some members =>
        let all_cast := members.map mk_tv_cast_member
        some (.dict all_cast (all_cast.filter (fun m => m.type == "Recurring")))
    | none => none
  else
    match movie_credits with
    | some members => some (.list (members.map mk_movie_cast_member))
    | none => none

/-! ## Retrying transport (`scripts/utils/tmdb_utils.py`, `make_tmdb_api_request`, lines 33-65) -/

/-- Outcome of one HTTP GET issued by the retrying transport: a 200
response with a JSON body, a 429 with an optional integer Retry-After
header, any other status, or an `aiohttp.ClientError` raised by the
transport. -/
inductive HttpAttempt where
  | ok (body : JObj)
  | rateLimited (retryAfter : Option Nat)
  | otherStatus (code : Nat)
  | clientError
  deriving Repr, DecidableEq

/-- An attempt outcome the loop retries after (429 or a transport
exception); any other outcome returns immediately. -/
def retryable : HttpAttempt → Bool
  | .rateLimited _ => true
  | .clientError => true
  | _ => false

/-- Loop body of `make_tmdb_api_request`: `attempts i` is the outcome of
the i-th GET (0-based), `fuel` the remaining retry budget
(`max_retries - retries`), `backoff` the current `backoff_factor` and
`sleeps` the reversed list of sleep durations performed so far.  On a 429
the sleep is the Retry-After header value, defaulting to the current
backoff factor, and the factor doubles; on a transport exception the
sleep is the backoff factor, which then doubles; a 200 returns the body;
any other status returns `None` at once; an exhausted budget returns
`None`.  The result is paired with the chronological sleep list. -/
def apiRequestGo (attempts : Nat → HttpAttempt) :
    Nat → Nat → Nat → List Nat → Option JObj × List Nat
  | _, 0, _, sleeps => (none, sleeps.reverse)
  | i, fuel + 1, backoff, sleeps =>
      match attempts i with
      | .ok body => (some body, sleeps.reverse)
      | .rateLimited ra =>
          let retry_after := ra.getD backoff
          apiRequestGo attempts (i + 1) fuel (backoff * 2) (retry_after :: sleeps)
      | .otherStatus _ => (none, sleeps.reverse)
      | .clientError =>
          apiRequestGo attempts (i + 1) fuel (backoff * 2) (backoff :: sleeps)

/-- Embedding of `tmdb_utils.make_tmdb_api_request` (lines 33-65):
`retries` starts at 0 and `backoff_factor` at 1. -/
def make_tmdb_api_request (attempts : Nat → HttpAttempt) (max_retries : Nat) :
    Option JObj × List Nat :=
  apiRequestGo attempts 0 max_retries 1 []

/-- Attempt sequence whose first `fails.length` outcomes are the given
(non-200) outcomes and which afterwards always answers 200 with `body`. -/
def attemptsSeq (fails : List HttpAttempt) (body : JObj) : Nat → HttpAttempt :=
  fun j => fails.getD j (.ok body)

/-- Sleep durations the specification predicts for a run of retried
attempts starting from the given backoff factor: a rate-limited attempt
sleeps its Retry-After header when present, otherwise the current backoff
factor, a transport error sleeps the current backoff factor, and the
factor doubles after every retried attempt.  This definition follows the
claim's words and is compared with the embedded loop. -/
def claimedSleeps : List HttpAttempt → Nat → List Nat
  | [], _ => []
  | a :: rest, backoff =>
      (match a with
       | .rateLimited (some h) => h
       | _ => backoff) :: claimedSleeps rest (backoff * 2)

/-! ## Enriched fetch assembly (`scripts/utils/tmdb_utils.py`, `fetch_tmdb_media_details`, lines 67-114, and `scripts/download_tmdb_images.py`, `get_tmdb_data`, lines 45-98) -/

/-- Value stored under the `cast` key of the assembled async record:
either the TV aggregate cast list, a flat movie list (possibly empty), or
- in the unreachable branch where a dict reaches the non-TV path - the
dict itself stored verbatim. -/
inductive CastVal where
  | tvMembers (l : List CastMember)
  | movieMembers (l : List MovieCastMember)
  | rawDict (c r : List CastMember)
  deriving Repr, DecidableEq

/-- Record assembled by `fetch_tmdb_media_details`.  `base` is the core
details body; the remaining fields are the keys the function assigns.
`recurring_cast := none` models the key being absent, while
`trailer_url`, `logo_path` and `rating` keys are always assigned (their
value may be `None`). -/
structure AsyncMediaRecord where
  base : JObj
  cast : CastVal
  recurring_cast : Option (List CastMember)
  trailer_url : Option String
  logo_path : Option String
  rating : Option String
  last_updated : String
  deriving Repr, DecidableEq

/-- Python `media_details['cast'] = cast_data if cast_data else []`
(line 107): `None` and an empty list are falsy and store `[]`; a
(necessarily nonempty) dict or a nonempty list is stored verbatim. -/
def elseBranchCast : Option CastData → CastVal
  | none => .movieMembers []
  | some (.list l) => if l.isEmpty then .movieMembers [] else .movieMembers l
  | some (.dict c r) => .rawDict c r

/-- Embedding of the assembly tail of `fetch_tmdb_media_details` (lines
90-114), after the TMDB id has been resolved: `core` is the result of the
core-details request (`none` both for a failed request and - per
`if not media_details` - an empty body); the cast, trailer, logo and
rating arguments are the results of the four sub-resource fetches, and
`now_iso` the assembly timestamp.  The earlier search path of the
function (lines 76-88) can only produce an early `return None` and
therefore never yields a record. -/
def fetch_tmdb_media_details_assemble (media_type : String) (core : Option JObj)
    (cast_data : Option CastData) (trailer logo rating : Option String)
    (now_iso : String) : Option AsyncMediaRecord :=
  match core with
  | none => none
  | some media_details =>
      if media_details.isEmpty then none
      else if media_type = "tv" then
        match cast_data with
        | some (.dict c r) =>
            some { base := media_details, cast := .tvMembers c,
                   recurring_cast := some r, trailer_url := trailer,
                   logo_path := logo, rating := rating, last_updated := now_iso }
        | _ =>
            some { base := media_details, cast := elseBranchCast cast_data,
                   recurring_cast := none, trailer_url := trailer,
                   logo_path := logo, rating := rating, last_updated := now_iso }
      else
        some { base := media_details, cast := elseBranchCast cast_data,
               recurring_cast := none, trailer_url := trailer,
               logo_path := logo, rating := rating, last_updated := now_iso }

/-- Composition of the cast fetch and the assembly: the enriched fetch of
`tmdb_utils.fetch_tmdb_media_details` with every transport outcome made
explicit. -/
def fetch_tmdb_media_details (media_type : String) (core : Option JObj)
    (tv_credits : Option (List AggCastMember))
    (movie_credits : Option (List CreditsMember))
    (trailer logo rating : Option String) (now_iso : String) :
    Option AsyncMediaRecord :=
  fetch_tmdb_media_details_assemble media_type core
    (fetch_tmdb_cast_details media_type tv_credits movie_credits)
    trailer logo rating now_iso

/-- Record assembled by the synchronous `get_tmdb_data`
(`download_tmdb_images.py`, lines 45-98): the `cast`, `trailer_url` and
`logo_path` keys are only assigned when the fetched value is truthy
(`if cast_details:` etc.), so `none` models an absent key;
`last_updated` is always assigned. -/
structure SyncMediaRecord where
  base : JObj
  cast : Option (List MovieCastMember)
  trailer_url : Option String
  logo_path : Option String
  last_updated : String
  deriving Repr, DecidableEq

/-- Python truthiness filter for an optional string value: an absent or
empty string stays absent. -/
def truthyStrOpt : Option String → Option String
  | some s => if s = "" then none else some s
  | none => none

/-- Embedding of the assembly tail of `get_tmdb_data` (lines 82-98):
`core` is the parsed details response, `cast_details` the list built by
`get_media_cast` (always a list), and the trailer and logo results those
of their helper functions. -/
def get_tmdb_data_assemble (core : JObj) (cast_details : List MovieCastMember)
    (trailer logo : Option String) (now_iso : String) : SyncMediaRecord :=
  { base := core
    cast := if cast_details.isEmpty then none else some cast_details
    trailer_url := truthyStrOpt trailer
    logo_path := truthyStrOpt logo
    last_updated := now_iso }

/-- Predicate: the stored cast value is a list (of either member shape),
not a verbatim dict. -/
def castIsList : CastVal → Bool
  | .tvMembers _ => true
  | .movieMembers _ => true
  | .rawDict _ _ => false

/-! ## URL and extension helpers (`download_tmdb_images.py`, `get_file_extension`, lines 274-277) -/

/-- Splitting a character list on a (nonempty) separator, structurally
recursive on a fuel bound so that it reduces inside the kernel; the fuel
is always instantiated with the list length, which suffices because each
step consumes at least one character. -/
def splitCharsAux (sep : List Char) : Nat → List Char → List (List Char)
  | 0, cs => [cs]
  | fuel + 1, cs =>
      match cs with
      | [] => [[]]
      | c :: rest =>
          if sep.isPrefixOf (c :: rest) then
            [] :: splitCharsAux sep fuel (rest.drop (sep.length - 1))
          else
            match splitCharsAux sep fuel rest with
            | [] => [[c]]
            | hd :: tl => (c :: hd) :: tl

/-- Python `s.split(sep)` for a nonempty separator (the embedded code
never splits on an empty one). -/
def pySplit (s : String) (sep : String) : List String :=
  if sep = "" then [s]
  else (splitCharsAux sep.toList s.toList.length s.toList).map String.mk

/-- Replacing every occurrence of a pattern, structurally recursive on a
fuel bound (see `splitCharsAux`). -/
def replaceCharsAux (pat rep : List Char) : Nat → List Char → List Char
  | 0, cs => cs
  | fuel + 1, cs =>
      match cs with
      | [] => []
      | c :: rest =>
          if pat.isPrefixOf (c :: rest) then
            rep ++ replaceCharsAux pat rep fuel (rest.drop (pat.length - 1))
          else c :: replaceCharsAux pat rep fuel rest

/-- Python `s.replace(pat, rep)` for a nonempty pattern (the embedded
code only replaces the fixed pattern `_path`). -/
def pyReplace (s pat rep : String) : String :=
  if pat = "" then s
  else String.mk (replaceCharsAux pat.toList rep.toList s.toList.length s.toList)

/-- Cutting a string at the first occurrence of a separator. -/
def cutAt (s : String) (sep : String) : String :=
  (pySplit s sep).headD s

/-- Dropping the query and fragment parts of a URL path, as
`urllib.parse.urlparse` does before exposing `.path`. -/
def cutQueryFrag (s : String) : String :=
  cutAt (cutAt s "#") "?"

/-- Path component of a URL as produced by `urlparse(url).path`: the part
after the scheme and network location, before any query or fragment; a
URL with no scheme separator is treated as all path. -/
def urlparse_path (url : String) : String :=
  match pySplit url "://" with
  | [] => ""
  | [_only] => cutQueryFrag url
  | _scheme :: rest =>
      let after := String.intercalate "://" rest
      match pySplit after "/" with
      | [] => ""
      | [_netloc] => ""
      | _netloc :: segs => cutQueryFrag ("/" ++ String.intercalate "/" segs)

/-- Index of the last dot in a character list. -/
def lastDotIdxAux : List Char → Nat → Option Nat → Option Nat
  | [], _, acc => acc
  | c :: rest, i, acc =>
      lastDotIdxAux rest (i + 1) (if c = '.' then some i else acc)

/-- Index of the first character that is not a dot. -/
def firstNonDotIdxAux : List Char → Nat → Option Nat
  | [], _ => none
  | c :: rest, i => if c = '.' then firstNonDotIdxAux rest (i + 1) else some i

/-- Extension part of `os.path.splitext` applied to a single path
component: the substring from the last dot, unless every earlier
character of the component is a dot (leading dots never start an
extension). -/
def splitextExt (base : String) : String :=
  let cs := base.toList
  match lastDotIdxAux cs 0 none, firstNonDotIdxAux cs 0 with
  | some d, some f => if f < d then String.mk (cs.drop d) else ""
  | _, _ => ""

/-- Final path component (the extension search of `os.path.splitext`
never crosses a slash). -/
def basenameOf (p : String) : String :=
  (pySplit p "/").getLastD p

/-- Embedding of `get_file_extension` (`download_tmdb_images.py`, lines
274-277): `os.path.splitext(urlparse(url).path)[1]`. -/
def get_file_extension (url : String) : String :=
  splitextExt (basenameOf (urlparse_path url))

/-- Rendering of a JSON value inside a python f-string (`str(value)`).
The embedded code only ever interpolates scalar values (image path
strings); the rendering of composite values is abbreviated. -/
def pyStr (v : JVal) : String :=
  match v with
  | .scalar (.str s) => s
  | .scalar (.num n) => toString n
  | .scalar (.boolean b) => if b then "True" else "False"
  | .scalar .null => "None"
  | .arr _ => ""
  | .obj _ => ""

/-- First `_`-separated component, python `s.split("_")[0]`. -/
def stemOf (s : String) : String :=
  (pySplit s "_").headD s

/-! ## Orchestrator (`download_tmdb_images.py`, `process_shows` lines 279-398 and `process_movies` lines 399-465) -/

/-- Truthiness of a python dict: nonempty. -/
def truthyDict (o : JObj) : Bool :=
  !o.isEmpty

/-- Embedding of `should_update_metadata` (lines 41-43):
`tmdb_config.get('update_metadata', True)`, used as a boolean. -/
def should_update_metadata (c : JObj) : Bool :=
  match jGet c "update_metadata" with
  | some v => jTruthy v
  | none => true

/-- Python `if 'metadata' in tmdb_config: data.update(tmdb_config['metadata'])`
(lines 304-305, 325-326, 440-441).  When the `metadata` key holds an
object, its fields are merged; when it holds anything else (null, a
scalar, an array), `dict.update` raises `TypeError`/`ValueError` before
any write - `none` models that raise. -/
def applyMetadataOverrides (d : JObj) (c : JObj) : Option JObj :=
  match jGet c "metadata" with
  | none => some d
  | some (JVal.obj fields) =>
      some (jUpdate d (fields.map (fun kv => (kv.1, JVal.scalar kv.2))))
  | some _ => none

/-- Wellformedness of the config's `metadata` key: absent or an object.
Exactly the configs on which the merge at `show_data.update` /
`movie_data.update` does not raise. -/
def metadata_key_ok (c : JObj) : Bool :=
  match jGet c "metadata" with
  | none => true
  | some (JVal.obj _) => true
  | some _ => false

/-- Observable actions of one orchestrator run over one entity: a
`get_tmdb_data` call, a metadata write with its content, an image
download (URL, destination, force flag), or an uncaught exception that
aborts the run. -/
inductive RunEvent where
  | fetchMetadata
  | writeMetadata (content : JObj)
  | download (url : String) (path : String) (force : Bool)
  | crash
  deriving Repr, DecidableEq

/-- State of one show directory at the start of the run, with the fetch
outcome of `get_tmdb_data` made explicit.  Times are integer seconds and
the whole run is modelled at the single instant `now`; image paths are
relative to the show directory.  `config` is the parsed `tmdb.config`
(`{}` when the file is absent or malformed); `config_mtime` is only
consulted when the parsed config is truthy, in which case the file
necessarily existed. -/
structure ShowEnv where
  now : Int
  metadata_exists : Bool
  metadata_mtime : Int
  existing_metadata : JObj
  config : JObj
  config_mtime : Int
  fetch : Option JObj
  image_file_exists : String → Bool

/-- Image fields iterated by the show pass (line 334). -/
def imageTypes : List String := ["backdrop_path", "poster_path", "logo_path"]

/-- Effective image URL of the show pass (lines 336-343): the override
value from the config when `override_<stem>` is present, otherwise the
record's own path, both prefixed with the image base. -/
def show_effective_url (tmdb_config show_data : JObj) (image_type : String) : String :=
  let override_key := "override_" ++ stemOf image_type
  match jGet tmdb_config override_key with
  | some ov => tmdbImageBase ++ pyStr ov
  | none => tmdbImageBase ++ pyStr ((jGet show_data image_type).getD JVal.jnull)

/-- Destination file name of the show pass (lines 345-346):
`show_<stem><extension of the effective URL>`. -/
def show_image_path (tmdb_config show_data : JObj) (image_type : String) : String :=
  "show_" ++ stemOf image_type ++
    get_file_extension (show_effective_url tmdb_config show_data image_type)

/-- Loop body of the show image pass for one field (lines 335-351): when
the field is present in the record, download (always forced) when the
metadata was refreshed this run or the destination file is missing. -/
def show_field_events (env : ShowEnv) (show_data : JObj) (need_refresh : Bool)
    (image_type : String) : List RunEvent :=
  if jHas show_data image_type then
    if need_refresh ||
       !(env.image_file_exists (show_image_path env.config show_data image_type)) then
      [RunEvent.download (show_effective_url env.config show_data image_type)
        (show_image_path env.config show_data image_type) true]
    else []
  else []

/-- Image pass of `process_shows` (lines 333-351). -/
def show_image_pass (env : ShowEnv) (show_data : JObj) (need_refresh : Bool) :
    List RunEvent :=
  imageTypes.flatMap (show_field_events env show_data need_refresh)

/-- Refresh decision of `process_shows` (lines 312-318): refresh when the
metadata file is missing, at least one day old, or - when the parsed
config dict is truthy - older than the config file. -/
def show_need_refresh (env : ShowEnv) : Bool :=
  if env.metadata_exists then
    decide (env.now - env.metadata_mtime ≥ oneDay) ||
      (if truthyDict env.config then decide (env.config_mtime > env.metadata_mtime)
       else false)
  else true

/-- Main body of `process_shows` for one show (lines 311-351): evaluate
the refresh decision, fetch and write on refresh (falling through to the
image pass with the merged record), load the existing document otherwise.
A `None` fetch result crashes at `image_type in show_data` (line 335);
a falsy `{}` result is written nowhere and yields an empty image pass.
The season and episode loop (lines 353-398) emits no metadata fetch,
metadata write or top-level image event and is not modelled. -/
def process_show_main (env : ShowEnv) : List RunEvent :=
  let need_refresh := show_need_refresh env
  if need_refresh then
    RunEvent.fetchMetadata ::
      (match env.fetch with
       | some d =>
           if truthyDict d then
             match applyMetadataOverrides d env.config with
             | some show_data =>
                 RunEvent.writeMetadata show_data ::
                   show_image_pass env show_data need_refresh
             | none => [RunEvent.crash]
           else
             show_image_pass env d need_refresh
       | none => [RunEvent.crash])
  else
    show_image_pass env env.existing_metadata need_refresh

/-- Embedding of `process_shows` for one show (lines 290-351): when the
config disallows updates and a metadata document exists, the show is
skipped entirely; when the document is missing, an initial fetch-and-write
happens and control falls through to the main body (with the metadata now
existing, its mtime the current instant). -/
def process_show (env : ShowEnv) : List RunEvent :=
  if !(should_update_metadata env.config) then
    if !env.metadata_exists then
      RunEvent.fetchMetadata ::
        (match env.fetch with
         | some d =>
             if truthyDict d then
               match applyMetadataOverrides d env.config with
               | some show_data =>
                   RunEvent.writeMetadata show_data ::
                     process_show_main { env with metadata_exists := true,
                                                  metadata_mtime := env.now,
                                                  existing_metadata := show_data }
               | none => [RunEvent.crash]
             else process_show_main env
         | none => process_show_main env)
    else []
  else process_show_main env

/-- State of one movie directory at the start of the run (see
`ShowEnv`); movies additionally consult the existence of the config file
itself (line 421). -/
structure MovieEnv where
  now : Int
  metadata_exists : Bool
  metadata_mtime : Int
  existing_metadata : JObj
  config : JObj
  config_file_exists : Bool
  config_mtime : Int
  fetch : Option JObj
  image_file_exists : String → Bool

/-- Refresh decision of `process_movies` (lines 417-427). -/
def movie_need_refresh (env : MovieEnv) : Bool :=
  if env.metadata_exists then
    if env.config_file_exists then
      decide (env.now - env.metadata_mtime ≥ oneDay) ||
        decide (env.config_mtime > env.metadata_mtime)
    else
      decide (env.now - env.metadata_mtime ≥ oneDay)
  else true

/-- Image fields iterated by the movie pass (line 446). -/
def movieImageKeys : List String := ["poster_path", "backdrop_path", "logo_path"]

/-- TMDB image URL the movie pass computes for a non-override field
(line 454). -/
def movie_tmdb_url (movie_data : JObj) (image_key : String) : String :=
  tmdbImageBase ++ pyStr ((jGet movie_data image_key).getD JVal.jnull)

/-- Destination file name the movie pass computes for a non-override
field (lines 455-456), relative to the movie directory. -/
def movie_file_path (movie_data : JObj) (image_key : String) : String :=
  (pyReplace image_key "_path" "") ++
    get_file_extension (movie_tmdb_url movie_data image_key)

/-- Image loop of `process_movies` (lines 446-465).  The python local
`image_url` is only assigned in the non-override branch, so the loop
carries it as state (`none` models the name being unbound); calling
`download_image` while it is unbound raises `NameError`, which aborts the
run (`RunEvent.crash`).  With an override, the override value is used as
the local destination path and `image_url` is left untouched; the
download decision compares the recorded and newly fetched values of the
field itself. -/
def movie_image_pass (config existing movie_data : JObj)
    (exists_fn : String → Bool) :
    List String → Option String → List RunEvent
  | [], _ => []
  | image_key :: rest, image_url0 =>
      if jHas movie_data image_key then
        let hasOv := jHas config ("override_" ++ stemOf image_key)
        let image_url :=
          if hasOv then image_url0 else some (movie_tmdb_url movie_data image_key)
        let file_path :=
          if hasOv then pyStr ((jGet config ("override_" ++ stemOf image_key)).getD JVal.jnull)
          else movie_file_path movie_data image_key
        if jHas existing image_key &&
           !(jGet existing image_key == jGet movie_data image_key) then
          match image_url with
          | some u =>
              RunEvent.download u file_path true ::
                movie_image_pass config existing movie_data exists_fn rest image_url
          | none => [RunEvent.crash]
        else if !(exists_fn file_path) then
          match image_url with
          | some u =>
              RunEvent.download u file_path false ::
                movie_image_pass config existing movie_data exists_fn rest image_url
          | none => [RunEvent.crash]
        else
          movie_image_pass config existing movie_data exists_fn rest image_url
      else
        movie_image_pass config existing movie_data exists_fn rest image_url0

/-- Embedding of `process_movies` for one movie (lines 406-465): the
image pass only runs inside a successful refresh (`refresh_metadata` true
and a truthy fetch result); a failed or falsy fetch ends the movie with
no write and no downloads. -/
def process_movie (env : MovieEnv) : List RunEvent :=
  let refresh_metadata := movie_need_refresh env
  let existing := if env.metadata_exists then env.existing_metadata else []
  if refresh_metadata then
    RunEvent.fetchMetadata ::
      (match env.fetch with
       | some d =>
           if truthyDict d then
             match applyMetadataOverrides d env.config with
             | some movie_data =>
                 RunEvent.writeMetadata movie_data ::
                   movie_image_pass env.config existing movie_data
                     env.image_file_exists movieImageKeys none
             | none => [RunEvent.crash]
           else []
       | none => [])
  else []

/-- Counting `get_tmdb_data` calls in a run trace. -/
def isFetchEvent : RunEvent → Bool
  | .fetchMetadata => true
  | _ => false

/-- Counting metadata writes in a run trace. -/
def isWriteEvent : RunEvent → Bool
  | .writeMetadata _ => true
  | _ => false

/-- Metadata fetch count of a trace. -/
def countFetches (t : List RunEvent) : Nat := t.countP isFetchEvent

/-- Metadata write count of a trace. -/
def countWrites (t : List RunEvent) : Nat := t.countP isWriteEvent

/-! ## Image download pipeline (`download_tmdb_images.py`, `download_image`, lines 118-152, and `scripts/utils/image_utils.py`, `download_image_file`, lines 24-78) -/

/-- Outcome of the HTTP GET for the image: a status code with the length
of the delivered body, or a transport error raised by the client. -/
inductive DlFetch where
  | status (code : Nat) (body_size : Nat)
  | connError
  deriving Repr, DecidableEq

/-- Filesystem and network state one download call runs against. -/
structure DlEnv where
  file_path_exists : Bool
  blurhash_exists : Bool
  fetch : DlFetch
  blurhash_result : Option String
  deriving Repr

/-- Observable actions of one download call, in order: deletion of the
sibling hash file, write of the image bytes, write of the regenerated
hash file, or an exception propagating out of the call. -/
inductive DlEvent where
  | deleteBlurhash
  | writeImage
  | writeBlurhash
  | raised
  deriving Repr, DecidableEq

/-- Embedding of `generate_and_save_blurhash` (lines 100-116 of the
orchestrator; `generate_blurhash_for_image` in `image_utils.py` is
identical for our purposes): the hash file is written only for a truthy
encoder result, and every failure is caught. -/
def generate_and_save_blurhash (blurhash_result : Option String) : List DlEvent :=
  match blurhash_result with
  | some s => if s = "" then [] else [DlEvent.writeBlurhash]
  | none => []

/-- Embedding of the synchronous `download_image` (lines 118-152): skip
when the file exists and `force_download` is unset; delete the sibling
hash file when present (its absence is tolerated by the existence guard
and a `FileNotFoundError` handler); fetch; write the image and spawn the
hash regeneration on a 200, log otherwise.  A transport exception from
`requests.get` is uncaught here and propagates (`raised`), after the
deletion has already happened. -/
def download_image (env : DlEnv) (force_download : Bool) : List DlEvent :=
  if env.file_path_exists && !force_download then []
  else
    (if env.blurhash_exists then [DlEvent.deleteBlurhash] else []) ++
    (match env.fetch with
     | .status code _ =>
         if code = 200 then
           DlEvent.writeImage :: generate_and_save_blurhash env.blurhash_result
         else []
     | .connError => [DlEvent.raised])

/-- Embedding of the asynchronous `download_image_file`
(`image_utils.py`, lines 24-78): as `download_image`, with the transport
error caught (`aiohttp.ClientError`) and the hash regeneration gated on a
verified non-empty write. -/
def download_image_file (env : DlEnv) (force_download : Bool) : List DlEvent :=
  if env.file_path_exists && !force_download then []
  else
    (if env.blurhash_exists then [DlEvent.deleteBlurhash] else []) ++
    (match env.fetch with
     | .status code body_size =>
         if code = 200 then
           DlEvent.writeImage ::
             (if body_size > 0 then generate_and_save_blurhash env.blurhash_result
              else [])
         else []
     | .connError => [])

/-! ## Top-level driver (`download_tmdb_images.py`, lines 470-479) -/

/-- Start and end markers of the two top-level passes. -/
inductive TopEvent where
  | moviePassStart
  | moviePassEnd
  | showPassStart
  | showPassEnd
  deriving Repr, DecidableEq

/-- Truthiness of an optional CLI string argument: an absent argument is
`None` (falsy) and an empty string is likewise falsy in python. -/
def argTruthy : Option String → Bool
  | none => false
  | some s => !(s = "")

/-- Embedding of the main execution block (lines 470-479): plain
synchronous calls, so each invoked pass runs to completion before the
next call.  The guards are python truthiness tests (`if args.show:` /
`elif args.movie:`), so a truthy `--show` runs only the show pass, a
truthy `--movie` only the movie pass, and otherwise - including empty
string arguments - the movie pass is called first and then the show
pass. -/
def main_exec (show_arg movie_arg : Option String) : List TopEvent :=
  if argTruthy show_arg then
    [TopEvent.showPassStart, TopEvent.showPassEnd]
  else if argTruthy movie_arg then
    [TopEvent.moviePassStart, TopEvent.moviePassEnd]
  else
    [TopEvent.moviePassStart, TopEvent.moviePassEnd,
     TopEvent.showPassStart, TopEvent.showPassEnd]

/-- Directory filter of `process_shows`/`process_movies` (lines 280-284,
400-404): entries are (name, is-directory) pairs; a falsy (absent or
empty) specific name selects everything, otherwise only the equal name. -/
def entities_to_process (entries : List (String × Bool))
    (specific : Option String) : List String :=
  (entries.filter (fun e =>
    e.2 && (match specific with
            | none => true
            | some s => decide (s = "") || decide (e.1 = s)))).map (fun e => e.1)

/-- Formalization of the claim's "runs the two passes concurrently": each
pass starts before the other one ends. -/
def passesConcurrent (t : List TopEvent) : Bool :=
  match t.indexOf? TopEvent.moviePassStart, t.indexOf? TopEvent.moviePassEnd,
        t.indexOf? TopEvent.showPassStart, t.indexOf? TopEvent.showPassEnd with
  | some ms, some me, some ss, some se =>
      decide (ms < se) && decide (ss < me)
  | _, _, _, _ => false

/-! ## Concrete run states used as counterexamples and witnesses -/

/-- Show with updates disabled, no metadata document, and an unavailable
remote: the initial fetch fails. -/
def C2env : ShowEnv :=
  { now := 1000000, metadata_exists := false, metadata_mtime := 0,
    existing_metadata := [], config := [("update_metadata", JVal.jbool false)],
    config_mtime := 0, fetch := none, image_file_exists := fun _ => false }

/-- Show with updates disabled and an existing metadata document. -/
def C2envSkip : ShowEnv :=
  { now := 1000000, metadata_exists := true, metadata_mtime := 999000,
    existing_metadata := [("poster_path", JVal.jstr "/p.jpg")],
    config := [("update_metadata", JVal.jbool false)],
    config_mtime := 0, fetch := some [("poster_path", JVal.jstr "/p.jpg")],
    image_file_exists := fun _ => false }

/-- Show with updates disabled, no metadata document, and a successful
fetch. -/
def C2envOk : ShowEnv :=
  { now := 1000000, metadata_exists := false, metadata_mtime := 0,
    existing_metadata := [], config := [("update_metadata", JVal.jbool false)],
    config_mtime := 0, fetch := some [("poster_path", JVal.jstr "/p.jpg")],
    image_file_exists := fun _ => false }

/-- Record fetched for the C4 counterexample show: the poster path is
identical to the one already recorded on disk. -/
def C4data : JObj := [("poster_path", JVal.jstr "/p.jpg")]

/-- Show whose metadata is 25 hours old (refresh due), whose fetched
poster URL equals the recorded one, and whose poster file exists. -/
def C4env : ShowEnv :=
  { now := 1000000, metadata_exists := true, metadata_mtime := 910000,
    existing_metadata := C4data, config := [], config_mtime := 0,
    fetch := some C4data, image_file_exists := fun _ => true }

/-- Show used to witness the amended C4 rule: fresh metadata (no refresh
due) and a missing poster file. -/
def C4envW : ShowEnv :=
  { now := 1000000, metadata_exists := true, metadata_mtime := 999000,
    existing_metadata := C4data, config := [], config_mtime := 0,
    fetch := some C4data, image_file_exists := fun _ => false }

/-- Movie with fresh metadata (no refresh due) and a missing poster
file. -/
def C4envM : MovieEnv :=
  { now := 1000000, metadata_exists := true, metadata_mtime := 999000,
    existing_metadata := [("poster_path", JVal.jstr "/p.jpg")], config := [],
    config_file_exists := false, config_mtime := 0,
    fetch := some [("poster_path", JVal.jstr "/p.jpg")],
    image_file_exists := fun _ => false }

/-- Movie record fetched for the C5 counterexample: poster unchanged,
backdrop changed. -/
def C5md : JObj :=
  [("poster_path", JVal.jstr "/p2.jpg"), ("backdrop_path", JVal.jstr "/b2.jpg")]

/-- Movie metadata previously on disk for the C5 counterexample. -/
def C5ex : JObj :=
  [("poster_path", JVal.jstr "/p2.jpg"), ("backdrop_path", JVal.jstr "/b1.jpg")]

/-- Movie with an `override_backdrop` config, a due refresh, an unchanged
poster whose file exists, and a changed backdrop. -/
def C5env : MovieEnv :=
  { now := 1000000, metadata_exists := true, metadata_mtime := 910000,
    existing_metadata := C5ex, config := [("override_backdrop", JVal.jstr "/ov.jpg")],
    config_file_exists := true, config_mtime := 0,
    fetch := some C5md, image_file_exists := fun p => p = "poster.jpg" }

/-- Show used to witness the amended C5 rule: an `override_poster`
config. -/
def C5envW : ShowEnv :=
  { now := 1000000, metadata_exists := true, metadata_mtime := 999000,
    existing_metadata := [], config := [("override_poster", JVal.jstr "/ovp.jpg")],
    config_mtime := 0, fetch := none, image_file_exists := fun _ => false }

/-- Download state with an existing sibling hash file, a missing image
file, a 200 response and a successful hash encoding. -/
def C6env : DlEnv :=
  { file_path_exists := false, blurhash_exists := true,
    fetch := DlFetch.status 200 5, blurhash_result := some "LEHV6nWB2yk8pyo0adR*.7kCMdnj" }

/-! ## Dictionary lemmas -/

theorem jGet_jSet_self (o : JObj) (k : String) (v : JVal) :
    jGet (jSet o k v) k = some v := by
  induction o with
  | nil => simp [jSet, jGet]
  | cons hd tl ih =>
      by_cases h : hd.1 = k
      · simp [jSet, jGet, h]
      · simp [jSet, jGet, h, ih]

theorem jGet_jSet_other (o : JObj) (k k2 : String) (v : JVal) (h : k2 ≠ k) :
    jGet (jSet o k v) k2 = jGet o k2 := by
  have hne : ¬(k = k2) := fun hh => h hh.symm
  induction o with
  | nil => simp [jSet, jGet, hne]
  | cons hd tl ih =>
      obtain ⟨a, b⟩ := hd
      by_cases ha : a = k
      · subst ha
        simp [jSet, jGet, hne]
      · by_cases ha2 : a = k2
        · simp [jSet, jGet, ha, ha2, h]
        · simp [jSet, jGet, ha, ha2, ih]

theorem jHas_jSet_self (o : JObj) (k : String) (v : JVal) :
    jHas (jSet o k v) k = true := by
  simp [jHas, jGet_jSet_self]

theorem jHas_jSet_other (o : JObj) (k k2 : String) (v : JVal) (h : k2 ≠ k) :
    jHas (jSet o k v) k2 = jHas o k2 := by
  simp [jHas, jGet_jSet_other _ _ _ _ h]

/-- C1: for every pair of paths, `should_refresh_metadata` returns `false`
exactly when the metadata file exists, its age relative to now is strictly
less than 24 hours, and either the config file does not exist or its
modification time is at most the metadata file's; in every other case it
returns `true`.  The embedding is a total function over all filesystem
states, including both files missing, which reflects that the source never
raises on a missing path (every access is existence-guarded). -/
theorem C1_refresh_policy (fs : RefreshFS) (now : Int) :
    should_refresh_metadata fs now = false ↔
      (fs.metadata_exists = true ∧ now - fs.metadata_mtime < oneDay ∧
       (fs.config_exists = false ∨ fs.config_mtime ≤ fs.metadata_mtime)) := by
  obtain ⟨me, mt, ce, ct⟩ := fs
  cases me <;> cases ce <;>
    simp only [should_refresh_metadata, oneDay] <;>
    split_ifs with h <;>
    simp_all

/-- C3: `update_tmdb_config` creates the file with exactly the single
binding `tmdb_id ↦ media_id` when the file is absent; when the file exists
and the loaded config lacks `tmdb_id`, it writes the loaded config with
`tmdb_id` appended, preserving every other key's value; when `tmdb_id` is
present it performs no write; and any config document it ever writes has
its `tmdb_id` left unchanged by every later call, whatever ID that call
resolved. -/
theorem C3_update_tmdb_config (cfg : JObj) (media_id : Int) :
    (update_tmdb_config false cfg media_id = some [("tmdb_id", JVal.jnum media_id)]) ∧
    (jHas cfg "tmdb_id" = false →
      update_tmdb_config true cfg media_id =
        some (jSet cfg "tmdb_id" (JVal.jnum media_id)) ∧
      jGet (jSet cfg "tmdb_id" (JVal.jnum media_id)) "tmdb_id" =
        some (JVal.jnum media_id) ∧
      (∀ k, k ≠ "tmdb_id" →
        jGet (jSet cfg "tmdb_id" (JVal.jnum media_id)) k = jGet cfg k)) ∧
    (jHas cfg "tmdb_id" = true → update_tmdb_config true cfg media_id = none) ∧
    (∀ (config_exists : Bool) (w : JObj) (id2 : Int),
      update_tmdb_config config_exists cfg media_id = some w →
      jGet w "tmdb_id" = some (JVal.jnum media_id) ∧
      update_tmdb_config true w id2 = none) := by
  refine ⟨?_, ?_, ?_, ?_⟩
  · simp [update_tmdb_config]
  · intro h
    refine ⟨by simp [update_tmdb_config, h], jGet_jSet_self _ _ _, ?_⟩
    intro k hk
    exact jGet_jSet_other _ _ _ _ hk
  · intro h
    simp [update_tmdb_config, h]
  · intro config_exists w id2 hw
    cases config_exists with
    | false =>
        simp [update_tmdb_config] at hw
        subst hw
        constructor
        · simp [jGet]
        · simp [update_tmdb_config, jHas, jGet]
    | true =>
        by_cases h : jHas cfg "tmdb_id"
        · simp [update_tmdb_config, h] at hw
        · simp [update_tmdb_config, h] at hw
          subst hw
          refine ⟨jGet_jSet_self _ _ _, ?_⟩
          simp [update_tmdb_config, jHas_jSet_self]

/-- Witness for C1 at a concrete state: metadata one hour old, config
older than the metadata, so no refresh is due. -/
theorem C1_refresh_policy_witness :
    should_refresh_metadata
      { metadata_exists := true, metadata_mtime := 100000,
        config_exists := true, config_mtime := 50000 } 103600 = false := by
  exact (C1_refresh_policy _ 103600).2 (by refine ⟨rfl, by norm_num [oneDay], ?_⟩; right; norm_num)

/-- Witness for C3 at a concrete config: adding `tmdb_id` to a config that
lacks it preserves the other key, and a second call with a different ID
writes nothing. -/
theorem C3_update_tmdb_config_witness :
    update_tmdb_config true [("other", JVal.jstr "keep")] 7 =
      some [("other", JVal.jstr "keep"), ("tmdb_id", JVal.jnum 7)] ∧
    update_tmdb_config true [("other", JVal.jstr "keep"), ("tmdb_id", JVal.jnum 7)] 9 =
      none := by
  have h := C3_update_tmdb_config [("other", JVal.jstr "keep")] 7
  refine ⟨?_, ?_⟩
  · exact ((h.2.1 (by decide)).1).trans (by decide)
  · exact (h.2.2.2 true _ 9 ((h.2.1 (by decide)).1)).2

/-! ## Transport retry characterization -/

theorem apiRequestGo_spec (body : JObj) :
    ∀ (fails : List HttpAttempt), (∀ a ∈ fails, retryable a = true) →
    ∀ (i fuel backoff : Nat) (acc : List Nat) (attempts : Nat → HttpAttempt),
    (∀ j, j < fails.length → attempts (i + j) = fails.getD j (.ok body)) →
    attempts (i + fails.length) = .ok body →
    (fails.length < fuel →
      apiRequestGo attempts i fuel backoff acc =
        (some body, acc.reverse ++ claimedSleeps fails backoff)) ∧
    (fuel ≤ fails.length →
      apiRequestGo attempts i fuel backoff acc =
        (none, acc.reverse ++ claimedSleeps (fails.take fuel) backoff)) := by
  intro fails
  induction fails with
  | nil =>
      intro _ i fuel backoff acc attempts _ hok
      constructor
      · intro hlt
        match fuel, hlt with
        | f + 1, _ =>
            have hi : attempts i = .ok body := by simpa using hok
            simp [apiRequestGo, hi, claimedSleeps]
      · intro hle
        have h0 : fuel = 0 := Nat.le_zero.mp hle
        subst h0
        simp [apiRequestGo, claimedSleeps]
  | cons a rest ih =>
      intro hr i fuel backoff acc attempts hpre hok
      have ha : attempts i = a := by
        have h0 := hpre 0 (by simp)
        simpa using h0
      have hra : retryable a = true := hr a (by simp)
      have hrest : ∀ b ∈ rest, retryable b = true := fun b hb => hr b (by simp [hb])
      match fuel with
      | 0 =>
          constructor
          · intro hlt; omega
          · intro _; simp [apiRequestGo, claimedSleeps]
      | f + 1 =>
          have hpre2 : ∀ j, j < rest.length →
              attempts (i + 1 + j) = rest.getD j (.ok body) := by
            intro j hj
            have h1 := hpre (j + 1) (by simpa using Nat.succ_lt_succ hj)
            have h2 : i + (j + 1) = i + 1 + j := by omega
            rw [h2] at h1
            simpa using h1
          have hok2 : attempts (i + 1 + rest.length) = .ok body := by
            have h2 : i + (a :: rest).length = i + 1 + rest.length := by
              simp; omega
            rw [h2] at hok
            exact hok
          match a, hra with
          | .rateLimited ra, _ =>
              have hstep := ih hrest (i + 1) f (backoff * 2)
                (ra.getD backoff :: acc) attempts hpre2 hok2
              have hhead : claimedSleeps (HttpAttempt.rateLimited ra :: rest) backoff =
                  ra.getD backoff :: claimedSleeps rest (backoff * 2) := by
                cases ra <;> simp [claimedSleeps]
              constructor
              · intro hlt
                have hlt2 : rest.length < f := by simpa using Nat.lt_of_succ_lt_succ hlt
                have := hstep.1 hlt2
                simp only [apiRequestGo, ha]
                rw [this, hhead]
                simp
              · intro hle
                have hle2 : f ≤ rest.length := by simpa using Nat.le_of_succ_le_succ hle
                have := hstep.2 hle2
                simp only [apiRequestGo, ha]
                rw [this]
                have htake : claimedSleeps ((HttpAttempt.rateLimited ra :: rest).take (f + 1)) backoff =
                    ra.getD backoff :: claimedSleeps (rest.take f) (backoff * 2) := by
                  cases ra <;> simp [claimedSleeps]
                rw [htake]
                simp
          | .clientError, _ =>
              have hstep := ih hrest (i + 1) f (backoff * 2) (backoff :: acc) attempts hpre2 hok2
              constructor
              · intro hlt
                have hlt2 : rest.length < f := by simpa using Nat.lt_of_succ_lt_succ hlt
                have := hstep.1 hlt2
                simp only [apiRequestGo, ha]
                rw [this]
                simp [claimedSleeps]
              · intro hle
                have hle2 : f ≤ rest.length := by simpa using Nat.le_of_succ_le_succ hle
                have := hstep.2 hle2
                simp only [apiRequestGo, ha]
                rw [this]
                simp [claimedSleeps]

/-- C9: through the retrying transport, a 429 sleeps the Retry-After
duration (defaulting to the current backoff factor, which starts at one
unit), a transport exception sleeps the backoff factor, the factor
doubles after every retried attempt, five retried attempts without a
success return `None`, and in the enriched fetch a missing core-details
body aborts the whole record while missing cast, trailer, logo or rating
sub-results still yield an assembled record. -/
theorem C9_retry_and_failure_semantics :
    (∀ (fails : List HttpAttempt) (body : JObj),
      (∀ a ∈ fails, retryable a = true) →
      (fails.length < 5 →
        make_tmdb_api_request (attemptsSeq fails body) 5 =
          (some body, claimedSleeps fails 1)) ∧
      (5 ≤ fails.length →
        make_tmdb_api_request (attemptsSeq fails body) 5 =
          (none, claimedSleeps (fails.take 5) 1))) ∧
    (∀ media_type cast_data trailer logo rating now_iso,
      fetch_tmdb_media_details_assemble media_type none cast_data trailer
        logo rating now_iso = none) ∧
    (∀ media_type (core : JObj) cast_data trailer logo rating now_iso,
      core.isEmpty = false →
      (fetch_tmdb_media_details_assemble media_type (some core) cast_data
        trailer logo rating now_iso).isSome = true) := by
  refine ⟨?_, ?_, ?_⟩
  · intro fails body hr
    have hpre : ∀ j, j < fails.length →
        attemptsSeq fails body (0 + j) = fails.getD j (.ok body) := by
      intro j hj
      simp [attemptsSeq]
    have hok : attemptsSeq fails body (0 + fails.length) = .ok body := by
      simp [attemptsSeq, List.getD_eq_default]
    exact apiRequestGo_spec body fails hr 0 5 1 [] (attemptsSeq fails body) hpre hok
  · intro media_type cast_data trailer logo rating now_iso
    rfl
  · intro media_type core cast_data trailer logo rating now_iso hcore
    by_cases ht : media_type = "tv"
    · match cast_data with
      | some (.dict c r) => simp [fetch_tmdb_media_details_assemble, hcore, ht]
      | some (.list l) => simp [fetch_tmdb_media_details_assemble, hcore, ht]
      | none => simp [fetch_tmdb_media_details_assemble, hcore, ht]
    · simp [fetch_tmdb_media_details_assemble, hcore, ht]

/-- Witness for C9: a 429 with header 7, then a transport error, then a
headerless 429 sleep 7, 2 and 4 units before the fourth attempt succeeds;
five straight transport errors sleep 1, 2, 4, 8 and 16 units and give up
with `None`. -/
theorem C9_retry_witness :
    make_tmdb_api_request
      (attemptsSeq [HttpAttempt.rateLimited (some 7), HttpAttempt.clientError,
        HttpAttempt.rateLimited none] []) 5 = (some [], [7, 2, 4]) ∧
    make_tmdb_api_request
      (attemptsSeq (List.replicate 5 HttpAttempt.clientError) []) 5 =
      (none, [1, 2, 4, 8, 16]) := by
  constructor
  · exact ((C9_retry_and_failure_semantics.1 _ [] (by decide)).1 (by decide)).trans
      (by decide)
  · exact ((C9_retry_and_failure_semantics.1 _ [] (by decide)).2 (by decide)).trans
      (by decide)

/-! ## Output contract of the enriched fetches -/

/-- C8 fails on the code: the synchronous `get_tmdb_data` omits the
`cast` key entirely when the fetched cast list is empty (rather than
storing an empty list), and the async fetch returns a TV record with no
`recurring_cast` key when the aggregate-credits sub-fetch fails. -/
theorem C8_counterexample :
    (get_tmdb_data_assemble [("id", JVal.jnum 1)] [] none none "T").cast = none ∧
    fetch_tmdb_media_details "tv" (some [("id", JVal.jnum 1)]) none none none
        none none "T" =
      some { base := [("id", JVal.jnum 1)], cast := CastVal.movieMembers [],
             recurring_cast := none, trailer_url := none, logo_path := none,
             rating := none, last_updated := "T" } := by
  exact ⟨rfl, rfl⟩

/-- C8 amended: every record returned by `fetch_tmdb_media_details`
carries `last_updated` set at assembly time and a list-valued `cast`
(empty when no cast could be fetched, never a missing key), flat for
movies; it carries `recurring_cast` exactly when the media type is tv and
the aggregate-credits fetch succeeded (not for every TV record).  The
synchronous `get_tmdb_data` always carries `last_updated`, but omits the
`cast` key exactly when the fetched cast list is empty. -/
theorem C8_output_contract_amended :
    (∀ media_type core tv_credits movie_credits trailer logo rating now_iso rec,
      fetch_tmdb_media_details media_type core tv_credits movie_credits
        trailer logo rating now_iso = some rec →
      rec.last_updated = now_iso ∧
      castIsList rec.cast = true ∧
      (rec.recurring_cast.isSome = true ↔
        (media_type = "tv" ∧ tv_credits.isSome = true)) ∧
      (media_type ≠ "tv" → ∃ flat, rec.cast = CastVal.movieMembers flat)) ∧
    (∀ core cast_details trailer logo now_iso,
      (get_tmdb_data_assemble core cast_details trailer logo now_iso).last_updated =
        now_iso ∧
      ((get_tmdb_data_assemble core cast_details trailer logo now_iso).cast = none ↔
        cast_details = [])) := by
  constructor
  · intro media_type core tv_credits movie_credits trailer logo rating now_iso rec hres
    unfold fetch_tmdb_media_details fetch_tmdb_media_details_assemble
      fetch_tmdb_cast_details at hres
    match core with
    | none => simp at hres
    | some d =>
        by_cases hd : d.isEmpty
        · simp [hd] at hres
        · simp only [hd, Bool.false_eq_true, if_false] at hres
          by_cases ht : media_type = "tv"
          · simp only [ht, if_true] at hres
            match tv_credits with
            | some members =>
                simp only [Option.some.injEq] at hres
                subst hres
                simp [castIsList, ht]
            | none =>
                simp only [Option.some.injEq] at hres
                subst hres
                simp [castIsList, elseBranchCast, ht]
          · simp only [ht, if_false] at hres
            match movie_credits with
            | some members =>
                simp only [Option.some.injEq] at hres
                subst hres
                by_cases hm : members = [] <;>
                  simp [castIsList, elseBranchCast, ht, hm]
            | none =>
                simp only [Option.some.injEq] at hres
                subst hres
                simp [castIsList, elseBranchCast, ht]
  · intro core cast_details trailer logo now_iso
    refine ⟨rfl, ?_⟩
    by_cases hc : cast_details = [] <;>
      simp [get_tmdb_data_assemble, hc, List.isEmpty_iff]

/-- Witness for C8 amended at a concrete movie fetch whose sub-resources
all failed: the record carries the timestamp and an empty list cast. -/
theorem C8_output_contract_witness :
    ({ base := [("id", JVal.jnum 5)], cast := CastVal.movieMembers [],
       recurring_cast := none, trailer_url := none, logo_path := none,
       rating := none, last_updated := "T2" } : AsyncMediaRecord).last_updated =
      "T2" ∧
    castIsList ({ base := [("id", JVal.jnum 5)], cast := CastVal.movieMembers [],
                  recurring_cast := none, trailer_url := none, logo_path := none,
                  rating := none, last_updated := "T2" } : AsyncMediaRecord).cast =
      true := by
  have h := C8_output_contract_amended.1 "movie" (some [("id", JVal.jnum 5)])
    none none none none none "T2" _ rfl
  exact ⟨h.1, h.2.1⟩

/-- C7: `classify_role` maps every episode count `n` to Season Regular
when `n ≥ 8`, Recurring when `3 ≤ n ≤ 7`, and Guest Star when `n < 3`
(including 0 and negative counts); a missing count defaults to 0 and is
classified Guest Star; and the assembled TV cast data exposes
`recurring_cast` as exactly the members of `cast` whose type is
Recurring. -/
theorem C7_cast_classification :
    (∀ n : Int,
      (8 ≤ n → classify_role n = "Season Regular") ∧
      (3 ≤ n → n ≤ 7 → classify_role n = "Recurring") ∧
      (n < 3 → classify_role n = "Guest Star")) ∧
    (∀ m : AggCastMember, m.total_episode_count = none →
      (mk_tv_cast_member m).type = "Guest Star") ∧
    (∀ media_type tv_credits movie_credits cast recurring,
      fetch_tmdb_cast_details media_type tv_credits movie_credits =
        some (CastData.dict cast recurring) →
      recurring = cast.filter (fun m => m.type == "Recurring")) := by
  refine ⟨?_, ?_, ?_⟩
  · intro n
    refine ⟨fun h => ?_, fun h3 h7 => ?_, fun h => ?_⟩ <;>
      · unfold classify_role
        split_ifs <;> first | rfl | omega
  · intro m hm
    simp [mk_tv_cast_member, hm, classify_role]
  · intro media_type tv_credits movie_credits cast recurring hres
    unfold fetch_tmdb_cast_details at hres
    by_cases ht : media_type = "tv"
    · simp only [ht, if_pos] at hres
      match tv_credits with
      | some members =>
          simp only [Option.some.injEq, CastData.dict.injEq] at hres
          obtain ⟨h1, h2⟩ := hres
          subst h1
          exact h2.symm
      | none => simp at hres
    · simp only [ht, if_false] at hres
      match movie_credits with
      | some members => simp at hres
      | none => simp at hres

/-- Witness for C7 at concrete counts and a concrete aggregate cast:
episode counts 8, 3 and 2 classify as the claim states, and the filtered
recurring list is recovered from the assembled dict. -/
theorem C7_cast_classification_witness :
    classify_role 8 = "Season Regular" ∧
    classify_role 3 = "Recurring" ∧
    classify_role 2 = "Guest Star" ∧
    (mk_tv_cast_member
      { id := 1, name := "A", roles := [], profile_path := none,
        total_episode_count := none, known_for_department := none }).type =
      "Guest Star" := by
  refine ⟨?_, ?_, ?_, ?_⟩
  · exact (C7_cast_classification.1 8).1 (by norm_num)
  · exact (C7_cast_classification.1 3).2.1 (by norm_num) (by norm_num)
  · exact (C7_cast_classification.1 2).2.2 (by norm_num)
  · exact C7_cast_classification.2.1 _ rfl

/-! ## Orchestrator helper lemmas -/

theorem show_field_events_is_download (env : ShowEnv) (sd : JObj) (nr : Bool)
    (t : String) :
    ∀ e ∈ show_field_events env sd nr t, ∃ u p, e = RunEvent.download u p true := by
  intro e he
  unfold show_field_events at he
  by_cases h1 : jHas sd t
  · simp only [h1, if_true] at he
    split_ifs at he with h2
    · simp only [List.mem_singleton] at he
      exact ⟨_, _, he⟩
    · simp at he
  · simp [h1] at he

theorem show_image_pass_is_download (env : ShowEnv) (sd : JObj) (nr : Bool) :
    ∀ e ∈ show_image_pass env sd nr, ∃ u p, e = RunEvent.download u p true := by
  intro e he
  simp only [show_image_pass, List.mem_flatMap] at he
  obtain ⟨t, _, he⟩ := he
  exact show_field_events_is_download env sd nr t e he

theorem countFetches_show_image_pass (env : ShowEnv) (sd : JObj) (nr : Bool) :
    countFetches (show_image_pass env sd nr) = 0 := by
  unfold countFetches
  rw [List.countP_eq_zero]
  intro e he
  obtain ⟨u, p, rfl⟩ := show_image_pass_is_download env sd nr e he
  simp [isFetchEvent]

theorem countWrites_show_image_pass (env : ShowEnv) (sd : JObj) (nr : Bool) :
    countWrites (show_image_pass env sd nr) = 0 := by
  unfold countWrites
  rw [List.countP_eq_zero]
  intro e he
  obtain ⟨u, p, rfl⟩ := show_image_pass_is_download env sd nr e he
  simp [isWriteEvent]

/-! ## Disabled-update behaviour of the show pass -/

/-- C2 fails on the code: with updates disabled and no metadata document,
when the initial fetch returns no data the orchestrator does not stop at
one fetch - it falls through to the periodic-refresh path and calls
`get_tmdb_data` a second time in the same run (and writes nothing). -/
theorem C2_counterexample :
    should_update_metadata C2env.config = false ∧
    C2env.metadata_exists = false ∧
    countFetches (process_show C2env) = 2 ∧
    countWrites (process_show C2env) = 0 := by
  exact ⟨rfl, rfl, rfl, rfl⟩

/-- C2 amended: for every show whose config has `update_metadata=false`,
if the metadata document exists the show is skipped entirely (an empty
run trace: no fetch, no write, no image pass); if it does not exist, the
initial fetch succeeds with a truthy record, the config's `metadata` key
(when present) is an object (otherwise the merge raises before the
write), and the config file is not newer than the run instant, exactly
one fetch and one write happen; but when the fetch returns no data the
run performs a second fetch in the periodic path, so the one-fetch
guarantee only holds for a successful initial fetch. -/
theorem C2_update_disallowed_amended (env : ShowEnv)
    (hflag : should_update_metadata env.config = false) :
    (env.metadata_exists = true → process_show env = []) ∧
    (∀ d, env.metadata_exists = false → env.fetch = some d →
      truthyDict d = true → metadata_key_ok env.config = true →
      env.config_mtime ≤ env.now →
      countFetches (process_show env) = 1 ∧
      countWrites (process_show env) = 1) := by
  constructor
  · intro hmeta
    simp [process_show, hflag, hmeta]
  · intro d hmeta hfetch htruthy hmk hcfg
    obtain ⟨md, hmd⟩ : ∃ md, applyMetadataOverrides d env.config = some md := by
      unfold metadata_key_ok at hmk
      unfold applyMetadataOverrides
      match hg : jGet env.config "metadata" with
      | none => exact ⟨d, rfl⟩
      | some (JVal.obj fields) =>
          exact ⟨_, rfl⟩
      | some (JVal.scalar v) =>
          rw [hg] at hmk
          simp at hmk
      | some (JVal.arr xs) =>
          rw [hg] at hmk
          simp at hmk
    have hnr : ∀ (em : JObj) (fo : Option JObj),
        show_need_refresh
          { now := env.now, metadata_exists := true, metadata_mtime := env.now,
            existing_metadata := em, config := env.config,
            config_mtime := env.config_mtime, fetch := fo,
            image_file_exists := env.image_file_exists } = false := by
      intro em fo
      have h2 : ¬(env.config_mtime > env.now) := not_lt.mpr hcfg
      simp [show_need_refresh, oneDay, h2]
    have htrace : process_show env =
        RunEvent.fetchMetadata ::
          RunEvent.writeMetadata md ::
          show_image_pass
            { now := env.now, metadata_exists := true, metadata_mtime := env.now,
              existing_metadata := md,
              config := env.config, config_mtime := env.config_mtime,
              fetch := some d, image_file_exists := env.image_file_exists }
            md false := by
      unfold process_show
      rw [hflag, hmeta, hfetch]
      simp only [Bool.not_false, if_true, htruthy]
      rw [hmd]
      unfold process_show_main
      simp [hnr]
    rw [htrace]
    have hp1 := countFetches_show_image_pass
      { now := env.now, metadata_exists := true, metadata_mtime := env.now,
        existing_metadata := md,
        config := env.config, config_mtime := env.config_mtime,
        fetch := some d, image_file_exists := env.image_file_exists }
      md false
    have hp2 := countWrites_show_image_pass
      { now := env.now, metadata_exists := true, metadata_mtime := env.now,
        existing_metadata := md,
        config := env.config, config_mtime := env.config_mtime,
        fetch := some d, image_file_exists := env.image_file_exists }
      md false
    constructor
    · simp [countFetches, List.countP_cons, isFetchEvent, isWriteEvent] at hp1 ⊢
      exact hp1
    · simp [countWrites, List.countP_cons, isFetchEvent, isWriteEvent] at hp2 ⊢
      exact hp2

/-- Witness for the amended C2 at concrete shows: one with an existing
document is skipped, one with a missing document and a successful fetch
fetches and writes exactly once. -/
theorem C2_update_disallowed_witness :
    process_show C2envSkip = [] ∧
    countFetches (process_show C2envOk) = 1 ∧
    countWrites (process_show C2envOk) = 1 := by
  refine ⟨(C2_update_disallowed_amended C2envSkip rfl).1 rfl, ?_, ?_⟩
  · exact ((C2_update_disallowed_amended C2envOk rfl).2
      [("poster_path", JVal.jstr "/p.jpg")] rfl rfl rfl rfl
      (by norm_num [C2envOk])).1
  · exact ((C2_update_disallowed_amended C2envOk rfl).2
      [("poster_path", JVal.jstr "/p.jpg")] rfl rfl rfl rfl
      (by norm_num [C2envOk])).2

/-! ## Image change detection -/

/-- C4 fails on the code for the show pass: with the metadata 25 hours
old the refresh is due, and the poster is re-downloaded (forced) even
though the destination file exists and the effective URL is identical to
the URL recorded in the previously-loaded metadata - the show pass keys
downloads on the refresh decision, not on URL difference. -/
theorem C4_counterexample :
    (process_show C4env).contains
      (RunEvent.download "https://image.tmdb.org/t/p/original/p.jpg"
        "show_poster.jpg" true) = true ∧
    C4env.image_file_exists "show_poster.jpg" = true ∧
    jGet C4env.existing_metadata "poster_path" = jGet C4data "poster_path" ∧
    C4env.fetch = some C4data := by
  exact ⟨by decide, rfl, rfl, rfl⟩

/-- C4 amended: in the show pass, a field is downloaded (always forced)
exactly when it is present in the record and the metadata was refreshed
this run or the destination file is missing - URL difference plays no
role.  In the movie pass, no image work at all happens unless a refresh
was due and the fetch succeeded; within a successful refresh, a field is
force-downloaded when its recorded value differs from the newly fetched
value, and plainly downloaded when the destination file is missing. -/
theorem C4_download_signal_amended :
    (∀ (env : ShowEnv) (sd : JObj) (nr : Bool) (u p : String) (f : Bool),
      RunEvent.download u p f ∈ show_image_pass env sd nr ↔
        (f = true ∧ ∃ t ∈ imageTypes, jHas sd t = true ∧
          (nr = true ∨
            env.image_file_exists (show_image_path env.config sd t) = false) ∧
          u = show_effective_url env.config sd t ∧
          p = show_image_path env.config sd t)) ∧
    (∀ env : MovieEnv, movie_need_refresh env = false → process_movie env = []) ∧
    (∀ env : MovieEnv, movie_need_refresh env = true → env.fetch = none →
      process_movie env = [RunEvent.fetchMetadata]) ∧
    (∀ (config existing movie_data : JObj) (exf : String → Bool)
        (image_key : String) (iu : Option String),
      jHas movie_data image_key = true →
      jHas config ("override_" ++ stemOf image_key) = false →
      movie_image_pass config existing movie_data exf [image_key] iu =
        (if jHas existing image_key &&
            !(jGet existing image_key == jGet movie_data image_key) then
          [RunEvent.download (movie_tmdb_url movie_data image_key)
            (movie_file_path movie_data image_key) true]
        else if !(exf (movie_file_path movie_data image_key)) then
          [RunEvent.download (movie_tmdb_url movie_data image_key)
            (movie_file_path movie_data image_key) false]
        else [])) := by
  refine ⟨?_, ?_, ?_, ?_⟩
  · intro env sd nr u p f
    constructor
    · intro hmem
      simp only [show_image_pass, List.mem_flatMap] at hmem
      obtain ⟨t, ht, hmem⟩ := hmem
      unfold show_field_events at hmem
      by_cases h1 : jHas sd t = true
      · rw [if_pos h1] at hmem
        by_cases h2 : (nr ||
            !(env.image_file_exists (show_image_path env.config sd t))) = true
        · rw [if_pos h2] at hmem
          simp only [List.mem_singleton, RunEvent.download.injEq] at hmem
          obtain ⟨hu, hp, hf⟩ := hmem
          refine ⟨hf, t, ht, h1, ?_, hu, hp⟩
          simpa using h2
        · rw [if_neg h2] at hmem
          simp at hmem
      · rw [if_neg h1] at hmem
        simp at hmem
    · rintro ⟨hf, t, ht, h1, h2, hu, hp⟩
      subst hf
      subst hu
      subst hp
      simp only [show_image_pass, List.mem_flatMap]
      refine ⟨t, ht, ?_⟩
      unfold show_field_events
      rw [if_pos h1, if_pos ?_]
      · simp
      · rcases h2 with h | h
        · simp [h]
        · simp [h]
  · intro env h
    simp [process_movie, h]
  · intro env h hf
    simp [process_movie, h, hf]
  · intro config existing movie_data exf image_key iu hkey hov
    unfold movie_image_pass
    rw [if_pos hkey]
    simp only [hov, Bool.false_eq_true, if_false]
    split_ifs with hc1 hc2 <;> simp [movie_image_pass]

/-- Witness for the amended C4: a show with fresh metadata still
downloads its missing poster file, and a movie with fresh metadata does
no image work at all. -/
theorem C4_download_signal_witness :
    RunEvent.download (show_effective_url C4envW.config C4data "poster_path")
      (show_image_path C4envW.config C4data "poster_path") true ∈
      show_image_pass C4envW C4data false ∧
    process_movie C4envM = [] := by
  constructor
  · exact (C4_download_signal_amended.1 C4envW C4data false _ _ true).2
      ⟨rfl, "poster_path", by decide, rfl, Or.inr rfl, rfl, rfl⟩
  · exact C4_download_signal_amended.2.1 C4envM rfl

/-! ## Override precedence -/

theorem show_field_events_override_indep (env : ShowEnv) (sd : JObj) (nr : Bool)
    (t : String) (v w : JVal)
    (hov : jHas env.config ("override_" ++ stemOf t) = true) :
    ∀ t2, show_field_events env (jSet sd t v) nr t2 =
      show_field_events env (jSet sd t w) nr t2 := by
  intro t2
  by_cases he : t2 = t
  · subst he
    obtain ⟨ov, hov2⟩ : ∃ ov, jGet env.config ("override_" ++ stemOf t2) = some ov :=
      Option.isSome_iff_exists.mp hov
    simp [show_field_events, show_image_path, show_effective_url, jHas_jSet_self, hov2]
  · have hv : jGet (jSet sd t v) t2 = jGet sd t2 := jGet_jSet_other _ _ _ _ he
    have hw : jGet (jSet sd t w) t2 = jGet sd t2 := jGet_jSet_other _ _ _ _ he
    simp [show_field_events, show_image_path, show_effective_url, jHas, hv, hw]

/-- C5 fails on the code for the movie pass: with `override_backdrop` set
and the backdrop recorded as changed, the movie pass downloads to the
override path but with the URL computed for the previous (poster) field,
not a URL derived from the override; the fetch decision likewise compares
the remote recorded values.  (The show pass does honour the override; see
the amended theorem.) -/
theorem C5_counterexample :
    (process_movie C5env).contains
      (RunEvent.download "https://image.tmdb.org/t/p/original/p2.jpg"
        "/ov.jpg" true) = true ∧
    jGet C5env.config "override_backdrop" = some (JVal.jstr "/ov.jpg") ∧
    (process_movie C5env).contains
      (RunEvent.download "https://image.tmdb.org/t/p/original/ov.jpg"
        "/ov.jpg" true) = false := by
  exact ⟨by decide, rfl, by decide⟩

/-- C5 amended: in the show pass an override fully replaces the remote
URL - the pass is invariant under the remote value of the overridden
field, and the download it emits uses the override-derived URL.  In the
movie pass the override value is used only as the local destination path:
the fetch decision still compares the remote recorded values of the
field, and the download reuses whatever URL the last non-override field
computed (raising `NameError` when there is none). -/
theorem C5_override_precedence_amended :
    (∀ (env : ShowEnv) (sd : JObj) (nr : Bool) (t : String) (v w : JVal),
      jHas env.config ("override_" ++ stemOf t) = true →
      show_image_pass env (jSet sd t v) nr = show_image_pass env (jSet sd t w) nr) ∧
    (∀ (env : ShowEnv) (sd : JObj) (nr : Bool) (t : String) (ov : JVal),
      t ∈ imageTypes → jGet env.config ("override_" ++ stemOf t) = some ov →
      jHas sd t = true →
      (nr = true ∨ env.image_file_exists (show_image_path env.config sd t) = false) →
      RunEvent.download (tmdbImageBase ++ pyStr ov)
        (show_image_path env.config sd t) true ∈ show_image_pass env sd nr) ∧
    (∀ (config existing movie_data : JObj) (exf : String → Bool)
        (image_key : String) (rest : List String) (iu : Option String) (ov : JVal),
      jHas movie_data image_key = true →
      jGet config ("override_" ++ stemOf image_key) = some ov →
      movie_image_pass config existing movie_data exf (image_key :: rest) iu =
        (if jHas existing image_key &&
            !(jGet existing image_key == jGet movie_data image_key) then
          (match iu with
           | some u => RunEvent.download u (pyStr ov) true ::
               movie_image_pass config existing movie_data exf rest iu
           | none => [RunEvent.crash])
        else if !(exf (pyStr ov)) then
          (match iu with
           | some u => RunEvent.download u (pyStr ov) false ::
               movie_image_pass config existing movie_data exf rest iu
           | none => [RunEvent.crash])
        else movie_image_pass config existing movie_data exf rest iu)) := by
  refine ⟨?_, ?_, ?_⟩
  · intro env sd nr t v w hov
    unfold show_image_pass
    have h := show_field_events_override_indep env sd nr t v w hov
    simp only [imageTypes, List.flatMap_cons, List.flatMap_nil]
    rw [h "backdrop_path", h "poster_path", h "logo_path"]
  · intro env sd nr t ov ht hov hhas hcond
    simp only [show_image_pass, List.mem_flatMap]
    refine ⟨t, ht, ?_⟩
    have hurl : show_effective_url env.config sd t = tmdbImageBase ++ pyStr ov := by
      simp [show_effective_url, hov]
    unfold show_field_events
    rw [if_pos hhas, if_pos ?_]
    · simp [hurl]
    · rcases hcond with h | h
      · simp [h]
      · simp [h]
  · intro config existing movie_data exf image_key rest iu ov hkey hov
    have hasOvTrue : jHas config ("override_" ++ stemOf image_key) = true := by
      simp [jHas, hov]
    conv_lhs => rw [movie_image_pass]
    simp only [hkey, if_true, hasOvTrue, hov, Option.getD_some]

/-- Witness for the amended C5 at a concrete show with
`override_poster`: the emitted download uses the override-derived URL
although the record carries a different remote poster path. -/
theorem C5_override_precedence_witness :
    RunEvent.download (tmdbImageBase ++ pyStr (JVal.jstr "/ovp.jpg"))
      (show_image_path C5envW.config [("poster_path", JVal.jstr "/remote.jpg")]
        "poster_path") true ∈
      show_image_pass C5envW [("poster_path", JVal.jstr "/remote.jpg")] false := by
  exact C5_override_precedence_amended.2.1 C5envW
    [("poster_path", JVal.jstr "/remote.jpg")] false "poster_path"
    (JVal.jstr "/ovp.jpg") (by decide) (by decide) (by decide) (Or.inr rfl)

/-! ## Hash sibling consistency -/

theorem generate_mem (r : Option String) :
    ∀ e ∈ generate_and_save_blurhash r, e = DlEvent.writeBlurhash := by
  intro e he
  cases r with
  | none => simp [generate_and_save_blurhash] at he
  | some s =>
      by_cases hs : s = ""
      · simp [generate_and_save_blurhash, hs] at he
      · simp [generate_and_save_blurhash, hs] at he
        exact he

theorem download_image_shape (env : DlEnv) (force : Bool) :
    download_image env force = [] ∨
    ∃ tail, download_image env force =
      (if env.blurhash_exists then [DlEvent.deleteBlurhash] else []) ++ tail ∧
      DlEvent.deleteBlurhash ∉ tail ∧
      (DlEvent.raised ∈ tail → env.fetch = DlFetch.connError) := by
  unfold download_image
  by_cases hskip : (env.file_path_exists && !force) = true
  · left
    rw [if_pos hskip]
  · right
    rw [if_neg hskip]
    rcases hf : env.fetch with ⟨code, size⟩ | _
    · by_cases hc : code = 200
      · refine ⟨DlEvent.writeImage :: generate_and_save_blurhash env.blurhash_result,
          by simp [hc], ?_, ?_⟩
        · intro hmem
          rcases List.mem_cons.mp hmem with h | h
          · exact DlEvent.noConfusion h
          · exact DlEvent.noConfusion (generate_mem _ _ h)
        · intro hmem
          rcases List.mem_cons.mp hmem with h | h
          · exact absurd h (by simp)
          · exact absurd (generate_mem _ _ h) (by simp)
      · exact ⟨[], by simp [hc], by simp, by simp⟩
    · exact ⟨[DlEvent.raised], by simp, by simp, fun _ => rfl⟩

theorem download_image_file_shape (env : DlEnv) (force : Bool) :
    download_image_file env force = [] ∨
    ∃ tail, download_image_file env force =
      (if env.blurhash_exists then [DlEvent.deleteBlurhash] else []) ++ tail ∧
      DlEvent.deleteBlurhash ∉ tail ∧ DlEvent.raised ∉ tail := by
  unfold download_image_file
  by_cases hskip : (env.file_path_exists && !force) = true
  · left
    rw [if_pos hskip]
  · right
    rw [if_neg hskip]
    rcases env.fetch with ⟨code, size⟩ | _
    · by_cases hc : code = 200
      · refine ⟨DlEvent.writeImage ::
          (if size > 0 then generate_and_save_blurhash env.blurhash_result else []),
          by simp [hc], ?_, ?_⟩
        · intro hmem
          rcases List.mem_cons.mp hmem with h | h
          · exact DlEvent.noConfusion h
          · by_cases hsz : size > 0
            · rw [if_pos hsz] at h
              exact DlEvent.noConfusion (generate_mem _ _ h)
            · rw [if_neg hsz] at h
              simp at h
        · intro hmem
          rcases List.mem_cons.mp hmem with h | h
          · exact DlEvent.noConfusion h
          · by_cases hsz : size > 0
            · rw [if_pos hsz] at h
              exact DlEvent.noConfusion (generate_mem _ _ h)
            · rw [if_neg hsz] at h
              simp at h
      · exact ⟨[], by simp [hc], by simp, by simp⟩
    · exact ⟨[], by simp, by simp, by simp⟩

/-- C6: in both download functions, whenever the image bytes are written
the pre-existing sibling hash file was deleted first (the deletion is the
very first action and never recurs later in the call), the absence of the
hash file is tolerated (no deletion is attempted and nothing is raised on
its account: the only raise of the synchronous version comes from the
transport, and the asynchronous version never raises). -/
theorem C6_hash_delete_before_write (env : DlEnv) (force : Bool) :
    (env.blurhash_exists = true → DlEvent.writeImage ∈ download_image env force →
      ∃ rest, download_image env force = DlEvent.deleteBlurhash :: rest ∧
        DlEvent.writeImage ∈ rest ∧ DlEvent.deleteBlurhash ∉ rest) ∧
    (env.blurhash_exists = false →
      DlEvent.deleteBlurhash ∉ download_image env force) ∧
    (DlEvent.raised ∈ download_image env force → env.fetch = DlFetch.connError) ∧
    (env.blurhash_exists = true →
      DlEvent.writeImage ∈ download_image_file env force →
      ∃ rest, download_image_file env force = DlEvent.deleteBlurhash :: rest ∧
        DlEvent.writeImage ∈ rest ∧ DlEvent.deleteBlurhash ∉ rest) ∧
    (env.blurhash_exists = false →
      DlEvent.deleteBlurhash ∉ download_image_file env force) ∧
    (DlEvent.raised ∉ download_image_file env force) := by
  refine ⟨?_, ?_, ?_, ?_, ?_, ?_⟩
  · intro hb hw
    rcases download_image_shape env force with h | ⟨tail, heq, hnd, _⟩
    · rw [h] at hw
      simp at hw
    · rw [heq, if_pos hb] at hw ⊢
      refine ⟨tail, rfl, by simpa using hw, hnd⟩
  · intro hb
    rcases download_image_shape env force with h | ⟨tail, heq, hnd, _⟩
    · rw [h]
      simp
    · rw [heq, if_neg (by simp [hb])]
      simpa using hnd
  · intro hr
    rcases download_image_shape env force with h | ⟨tail, heq, hnd, hraise⟩
    · rw [h] at hr
      simp at hr
    · rw [heq] at hr
      apply hraise
      rcases List.mem_append.mp hr with h2 | h2
      · exfalso
        by_cases hb : env.blurhash_exists
        · rw [if_pos hb] at h2
          simp at h2
        · rw [if_neg hb] at h2
          simp at h2
      · exact h2
  · intro hb hw
    rcases download_image_file_shape env force with h | ⟨tail, heq, hnd, _⟩
    · rw [h] at hw
      simp at hw
    · rw [heq, if_pos hb] at hw ⊢
      refine ⟨tail, rfl, by simpa using hw, hnd⟩
  · intro hb
    rcases download_image_file_shape env force with h | ⟨tail, heq, hnd, _⟩
    · rw [h]
      simp
    · rw [heq, if_neg (by simp [hb])]
      simpa using hnd
  · intro hr
    rcases download_image_file_shape env force with h | ⟨tail, heq, hnd, hnr⟩
    · rw [h] at hr
      simp at hr
    · rw [heq] at hr
      rcases List.mem_append.mp hr with h2 | h2
      · by_cases hb : env.blurhash_exists
        · rw [if_pos hb] at h2
          simp at h2
        · rw [if_neg hb] at h2
          simp at h2
      · exact hnr h2

/-- Witness for C6 at a concrete call replacing an image that has a
sibling hash file: the deletion is the first event of both functions and
the write follows it. -/
theorem C6_hash_delete_witness :
    (download_image C6env false).head? = some DlEvent.deleteBlurhash ∧
    DlEvent.writeImage ∈ download_image C6env false ∧
    (download_image_file C6env false).head? = some DlEvent.deleteBlurhash := by
  obtain ⟨rest, heq, hmem, -⟩ :=
    (C6_hash_delete_before_write C6env false).1 rfl (by decide)
  obtain ⟨rest2, heq2, -, -⟩ :=
    (C6_hash_delete_before_write C6env false).2.2.2.1 rfl (by decide)
  refine ⟨?_, by decide, ?_⟩
  · rw [heq]
    rfl
  · rw [heq2]
    rfl

/-! ## Top-level driver -/

/-- C10 fails on the code for its concurrency half: the main block calls
`process_movies()` and then `process_shows()` as plain synchronous
statements, so the movie pass ends before the show pass starts - the two
passes do not overlap. -/
theorem C10_counterexample :
    passesConcurrent (main_exec none none) = false ∧
    main_exec none none = [TopEvent.moviePassStart, TopEvent.moviePassEnd,
      TopEvent.showPassStart, TopEvent.showPassEnd] := by
  exact ⟨by decide, rfl⟩

/-- C10 amended: with no target the driver runs the movie pass to
completion and then the show pass (sequentially, movies first - not
concurrently); a truthy (nonempty) `--show` runs only the show pass, a
truthy `--movie` only the movie pass, while an empty `--show` argument is
falsy and behaves exactly as an absent one; a nonempty specific name
restricts the processed directory entries to exactly that name, and no
name selects every directory entry. -/
theorem C10_driver_amended :
    (main_exec none none = [TopEvent.moviePassStart, TopEvent.moviePassEnd,
      TopEvent.showPassStart, TopEvent.showPassEnd]) ∧
    (∀ (s : String) (marg : Option String), s ≠ "" →
      main_exec (some s) marg = [TopEvent.showPassStart, TopEvent.showPassEnd]) ∧
    (∀ m : String, m ≠ "" →
      main_exec none (some m) = [TopEvent.moviePassStart, TopEvent.moviePassEnd]) ∧
    (∀ marg : Option String, main_exec (some "") marg = main_exec none marg) ∧
    (∀ (entries : List (String × Bool)) (s n : String), s ≠ "" →
      n ∈ entities_to_process entries (some s) → n = s) ∧
    (∀ (entries : List (String × Bool)) (n : String),
      n ∈ entities_to_process entries none ↔ (n, true) ∈ entries) := by
  refine ⟨rfl, ?_, ?_, fun marg => rfl, ?_, ?_⟩
  · intro s marg hs
    simp [main_exec, argTruthy, hs]
  · intro m hm
    simp [main_exec, argTruthy, hm]
  · intro entries s n hs hn
    simp only [entities_to_process, List.mem_map, List.mem_filter] at hn
    obtain ⟨e, ⟨-, hcond⟩, rfl⟩ := hn
    rw [Bool.and_eq_true] at hcond
    obtain ⟨-, hcond2⟩ := hcond
    rcases (by simpa using hcond2 : s = "" ∨ e.1 = s) with h | h
    · exact absurd h hs
    · exact h
  · intro entries n
    simp only [entities_to_process, List.mem_map, List.mem_filter]
    constructor
    · rintro ⟨e, ⟨he, hcond⟩, rfl⟩
      rw [Bool.and_eq_true] at hcond
      obtain ⟨hdir, -⟩ := hcond
      obtain ⟨n2, b⟩ := e
      simp only at hdir ⊢
      rw [hdir] at he
      exact he
    · intro he
      exact ⟨(n, true), ⟨he, by simp⟩, rfl⟩

/-- Witness for the amended C10: a concrete `--show` invocation runs only
the show pass, and a concrete restricted listing processes only the named
entry. -/
theorem C10_driver_witness :
    main_exec (some "X") none = [TopEvent.showPassStart, TopEvent.showPassEnd] ∧
    "B" = "B" ∧
    ("A" ∈ entities_to_process [("A", true), ("B", true), ("C", false)] none) := by
  refine ⟨C10_driver_amended.2.1 "X" none (by decide), ?_, ?_⟩
  · exact C10_driver_amended.2.2.2.2.1 [("A", true), ("B", true), ("C", false)]
      "B" "B" (by decide) (by decide)
  · exact (C10_driver_amended.2.2.2.2.2 [("A", true), ("B", true), ("C", false)]
      "A").mpr (by decide)

end MediaProc
